import Mathlib

/-!
Shallow embedding of the BadgerDB B+-tree index implementation (`btree.cpp`)
and verification of the specification claims against it.

Node arrays (`keyArray`, `pageNoArray`, `ridArray`) are modelled as total
functions `Nat → _`; the capacity constants `INTARRAYLEAFSIZE` (written `M`)
and `INTARRAYNONLEAFSIZE` (written `N`) are parameters, since the header that
fixes them is not part of the sources.  Page ids are `Nat` (0 is
`Page::INVALID_NUMBER`), keys are `Int` with the sentinel `-1`.  The buffer
manager is modelled by a page store (an association list `PageId ↦ page
contents`) inside the index state, together with a log of `unPinPage` calls
recording the `dirty` flag each call passed.  The unbounded `while` loops of
the C++ code are given explicit fuel; runs used in theorems always carry
enough fuel for the loop to finish on its own.
-/

namespace BTreeSim

/-- Record identifier: a (page_number, slot_number) pair, opaque to the index. -/
structure RecordId where
  pageNo : Nat
  slotNo : Nat
deriving DecidableEq, Repr

/-- The all-zero record id used for unoccupied `ridArray` slots. -/
def invalidRid : RecordId := ⟨0, 0⟩

/-- Pointwise update of a function-modelled array. -/
def aset {α : Type} (a : Nat → α) (i : Nat) (v : α) : Nat → α :=
  fun j => if j = i then v else a j

/-- Constant function-modelled array. -/
def aconst {α : Type} (v : α) : Nat → α := fun _ => v

/-- Leaf node: `keyArray`, `ridArray`, and the right-sibling page number. -/
structure LeafNodeInt where
  keys : Nat → Int
  rids : Nat → RecordId
  rightSibPageNo : Nat

/-- Non-leaf node: `level` (1 means children are leaves), `keyArray`,
and `pageNoArray` (one more slot than keys). -/
structure NonLeafNodeInt where
  level : Int
  keys : Nat → Int
  pageNos : Nat → Nat

/-- Contents of one page of the index file. -/
inductive PageNode where
  | nl (n : NonLeafNodeInt)
  | lf (n : LeafNodeInt)
  | hdr (rootPageNo : Nat)

/-- The page store: an association list from page id to page contents;
the most recent write for a page id shadows earlier ones. -/
abbrev Store := List (Nat × PageNode)

/-- A freshly allocated (zeroed) page viewed as a leaf:
all key slots sentinel, all rids invalid, right sibling 0. -/
def defaultLeaf : LeafNodeInt := ⟨aconst (-1), aconst invalidRid, 0⟩

/-- A freshly allocated (zeroed) page viewed as a non-leaf. -/
def defaultNonLeaf : NonLeafNodeInt := ⟨0, aconst (-1), aconst 0⟩

/-- Look a page up in the store. -/
def lookupPage (st : Store) (p : Nat) : Option PageNode :=
  (st.find? (fun e => e.1 == p)).map (fun e => e.2)

/-- Read a page and reinterpret it as a leaf node (`(LeafNodeInt*) page`). -/
def readLeaf (st : Store) (p : Nat) : LeafNodeInt :=
  match lookupPage st p with
  | some (.lf n) => n
  | _ => defaultLeaf

/-- Read a page and reinterpret it as a non-leaf node (`(NonLeafNodeInt*) page`). -/
def readNonLeaf (st : Store) (p : Nat) : NonLeafNodeInt :=
  match lookupPage st p with
  | some (.nl n) => n
  | _ => defaultNonLeaf

/-- Scan operators, as in the BadgerDB `Operator` enum. -/
inductive Operator
  | LT | LTE | GTE | GT
deriving DecidableEq, Repr

/-- Caller-visible error surface (plus `FuelOut`, an artifact of modelling
the unbounded C++ loops with fuel). -/
inductive BTErr
  | BadOpcodes | BadScanrange | ScanNotInitialized | IndexScanCompleted | FuelOut
deriving DecidableEq, Repr

/-- The search loop
`for (idx = 0; idx < size && keys[idx] != -1 && keys[idx] < key; idx++)`,
with `fuel` supplying the `idx < size` bound (call with `fuel = size`). -/
def findIdxLoop (keys : Nat → Int) (key : Int) : Nat → Nat → Nat
  | 0, idx => idx
  | fuel+1, idx =>
      if keys idx ≠ -1 ∧ keys idx < key then findIdxLoop keys key fuel (idx+1)
      else idx

/-- The shift-right insertion loop of `insertKeyInLeafNode`
(`for (; node->keyArray[idx] != -1; idx++) ...` followed by the final write). -/
def shiftInsLeaf : Nat → (Nat → Int) → (Nat → RecordId) → Int → RecordId → Nat →
    ((Nat → Int) × (Nat → RecordId))
  | 0, ks, rs, _, _, _ => (ks, rs)
  | fuel+1, ks, rs, k, r, idx =>
      if ks idx ≠ -1 then
        shiftInsLeaf fuel (aset ks idx k) (aset rs idx r) (ks idx) (rs idx) (idx+1)
      else (aset ks idx k, aset rs idx r)

/-- `BTreeIndex::insertKeyInLeafNode`: `none` models the `return false`
taken when the node is full (`keyArray[M-1] != -1`). -/
def insertKeyInLeafNode (M : Nat) (node : LeafNodeInt) (key : Int) (rid : RecordId) :
    Option LeafNodeInt :=
  if node.keys (M-1) ≠ -1 then none
  else
    let idx := findIdxLoop node.keys key M 0
    let p := shiftInsLeaf (M+1) node.keys node.rids key rid idx
    some { node with keys := p.1, rids := p.2 }

/-- The shift-right insertion loop of `insertKeyInNonLeafNode`; the page id
travelling with a key sits one slot to its right (`pageNoArray[idx+1]`). -/
def shiftInsNL : Nat → (Nat → Int) → (Nat → Nat) → Int → Nat → Nat →
    ((Nat → Int) × (Nat → Nat))
  | 0, ks, ps, _, _, _ => (ks, ps)
  | fuel+1, ks, ps, k, pid, idx =>
      if ks idx ≠ -1 then
        shiftInsNL fuel (aset ks idx k) (aset ps (idx+1) pid) (ks idx) (ps (idx+1)) (idx+1)
      else (aset ks idx k, aset ps (idx+1) pid)

/-- `BTreeIndex::insertKeyInNonLeafNode`: `none` models the `return false`
taken when the node is full (`keyArray[N-1] != -1`). -/
def insertKeyInNonLeafNode (N : Nat) (node : NonLeafNodeInt) (key : Int) (pid : Nat) :
    Option NonLeafNodeInt :=
  if node.keys (N-1) ≠ -1 then none
  else
    let idx := findIdxLoop node.keys key N 0
    let p := shiftInsNL (N+1) node.keys node.pageNos key pid idx
    some { node with keys := p.1, pageNos := p.2 }

/-- The move loop of `splitLeafNode`: copies entry `i` of the data node into
slot `i - mid` of the new leaf and clears `keyArray[i]` in the data node
(the rid slot in the data node is left as is, exactly as the code does). -/
def leafMoveLoop (mid : Nat) : Nat → Nat → LeafNodeInt → LeafNodeInt →
    (LeafNodeInt × LeafNodeInt)
  | 0, _, d, n => (d, n)
  | fuel+1, i, d, n =>
      leafMoveLoop mid fuel (i+1)
        { d with keys := aset d.keys i (-1) }
        { n with keys := aset n.keys (i-mid) (d.keys i),
                 rids := aset n.rids (i-mid) (d.rids i) }

/-- Result of a leaf split: the updated original node, the new right leaf,
and the key copied up to the parent. -/
structure LeafSplitRes where
  orig : LeafNodeInt
  newLeaf : LeafNodeInt
  promoted : Int

/-- `BTreeIndex::splitLeafNode` (with the new page's id `newPid` supplied by
the caller, which models `allocPage`).  Moves entries `[mid, M)` to the new
leaf, inserts the incoming pair into one half by comparing with the new
leaf's first key, relinks the sibling chain, and copies up the new leaf's
first key. -/
def splitLeafNode (M : Nat) (dataNode : LeafNodeInt) (key : Int) (rid : RecordId)
    (newPid : Nat) : LeafSplitRes :=
  let mid := (M+1)/2
  let moved := leafMoveLoop mid (M - mid) mid dataNode defaultLeaf
  let d1 := moved.1
  let n1 := moved.2
  let halves :=
    if key < n1.keys 0 then
      ((insertKeyInLeafNode M d1 key rid).getD d1, n1)
    else
      (d1, (insertKeyInLeafNode M n1 key rid).getD n1)
  let n2 := { halves.2 with rightSibPageNo := halves.1.rightSibPageNo }
  let d2 := { halves.1 with rightSibPageNo := newPid }
  ⟨d2, n2, n2.keys 0⟩

/-- The merge loop of `splitNonLeafNode`, transcribed exactly as written:
note that it reads `newNode`'s (freshly initialized) arrays, not the node
being split.  State is `(i, j, prevKey, keyArr, pageNoArr)`. -/
def nlMergeLoop (newKeys : Nat → Int) (newPageNos : Nat → Nat) (key : Int) (pid : Nat) :
    Nat → Nat → Nat → Int → (Nat → Int) → (Nat → Nat) →
    (Nat × Nat × (Nat → Int) × (Nat → Nat))
  | 0, i, j, _, ka, pa => (i, j, ka, pa)
  | fuel+1, i, j, prev, ka, pa =>
      if prev ≤ key ∧ key < newKeys j then
        nlMergeLoop newKeys newPageNos key pid fuel (i+1) j (newKeys j)
          (aset ka i key) (aset pa i pid)
      else
        nlMergeLoop newKeys newPageNos key pid fuel (i+1) (j+1) (newKeys j)
          (aset ka i (newKeys j)) (aset pa (i+1) (newPageNos (i+1)))

/-- Result of a non-leaf split: the updated original node, the new right
node, and the key pushed up to the parent. -/
structure NLSplitRes where
  orig : NonLeafNodeInt
  newNode : NonLeafNodeInt
  promoted : Int

/-- `BTreeIndex::splitNonLeafNode`, transcribed faithfully, including the
fact that both `pageNoArr[0]` and the whole merge loop read from the newly
allocated (all-sentinel) node `newNode` instead of from `node`. -/
def splitNonLeafNode (N : Nat) (node : NonLeafNodeInt) (key : Int) (pid : Nat) :
    NLSplitRes :=
  let newNode0 := { defaultNonLeaf with pageNos := aconst 0 }
  let mid := (N+1)/2
  let pa0 := aset (aconst 0) 0 (newNode0.pageNos 0)
  let r := nlMergeLoop newNode0.keys newNode0.pageNos key pid N 0 0 (-1) (aconst 0) pa0
  let i := r.1
  let j := r.2.1
  let ka1 := r.2.2.1
  let pa1 := r.2.2.2
  let merged := if i = j then (aset ka1 i key, aset pa1 (i+1) pid) else (ka1, pa1)
  let ka2 := merged.1
  let pa2 := merged.2
  let nodeA := { node with pageNos := aset node.pageNos 0 (pa2 0) }
  let nodeB := (List.range mid).foldl (fun nd t =>
      { nd with keys := aset nd.keys t (ka2 t),
                pageNos := aset nd.pageNos (t+1) (pa2 (t+1)) }) nodeA
  let newA := { newNode0 with pageNos := aset newNode0.pageNos 0 (pa2 (mid+1)) }
  let rl := ((List.range (N+1)).drop (mid+1)).foldl
      (fun (st : NonLeafNodeInt × NonLeafNodeInt) t =>
        ( { st.1 with keys := aset st.1.keys (t - mid - 1) (ka2 t),
                      pageNos := aset st.1.pageNos (t - mid) (pa2 (t+1)) },
          { st.2 with keys := aset st.2.keys (t-1) (-1),
                      pageNos := aset st.2.pageNos t 0 } )) (newA, nodeB)
  ⟨rl.2, { rl.1 with level := node.level }, ka2 mid⟩

/-- The in-memory `BTreeIndex` object together with the page store of its
index file and a log of every `unPinPage(file, p, dirty)` call made. -/
structure BTState where
  store : Store
  rootPageNum : Nat
  headerPageNum : Nat
  allocNext : Nat
  scanExecuting : Bool
  lowValInt : Int
  highValInt : Int
  lowOp : Operator
  highOp : Operator
  currentPageNum : Nat
  nextEntry : Nat
  unpins : List (Nat × Bool)

/-- `bufMgr->allocPage`: returns the fresh page id and bumps the counter. -/
def allocPage (s : BTState) : Nat × BTState :=
  (s.allocNext, { s with allocNext := s.allocNext + 1 })

/-- `bufMgr->unPinPage(file, p, dirty)`: recorded in the unpin log. -/
def unpin (s : BTState) (p : Nat) (dirty : Bool) : BTState :=
  { s with unpins := (p, dirty) :: s.unpins }

/-- Write page `p` of the index file. -/
def writePage (s : BTState) (p : Nat) (v : PageNode) : BTState :=
  { s with store := (p, v) :: s.store }

/-- Unpin every page id on the path stack with `dirty = true`
(the pop-and-unpin loops at the ends of `insertEntry`). -/
def unpinAll (s : BTState) (path : List Nat) : BTState :=
  path.foldl (fun st p => unpin st p true) s

/-- The descent loop of `insertEntry`.  Returns the page id of the target
data (leaf) node, the path stack (top first), and the updated state.  As in
the code, reaching `idx == 0` at any node triggers the "newly created root"
population: two fresh leaf pages are allocated and `keyArray[0]`,
`pageNoArray[0..1]` of the current node are overwritten in place (only the
key slots of the fresh leaves are initialized; rids and sibling pointer stay
at their freshly-zeroed values). -/
def descendLoop (M N : Nat) (key : Int) :
    Nat → Nat → List Nat → BTState → (Nat × List Nat × BTState)
  | 0, currPid, path, s => (currPid, path, s)
  | fuel+1, currPid, path, s =>
      let nd := readNonLeaf s.store currPid
      let idx := findIdxLoop nd.keys key N 0
      if idx = 0 then
        let a1 := allocPage s
        let ridR := a1.1
        let a2 := allocPage a1.2
        let ridL := a2.1
        let s2 := a2.2
        let nd2 := { nd with keys := aset nd.keys 0 key,
                             pageNos := aset (aset nd.pageNos 0 ridL) 1 ridR }
        let s3 := writePage s2 currPid (.nl nd2)
        let s4 := writePage s3 ridR (.lf defaultLeaf)
        let s5 := writePage s4 ridL (.lf defaultLeaf)
        let s6 := unpin s5 ridL true
        (ridR, path, s6)
      else
        let child := nd.pageNos idx
        let path2 := child :: path
        if nd.level = 1 then (child, path2, s)
        else descendLoop M N key fuel child path2 s

/-- The upward-propagation loop of `insertEntry`: keep splitting full
parents; on success insert into the parent and unpin the remaining path; if
the path empties, grow a new root (`level = 0`, `keyArray[0]` the promoted
key, children the last split node and its new sibling). -/
def propLoop (M N : Nat) :
    Nat → BTState → Int → Nat → Nat → List Nat → BTState
  | 0, s, _, _, _, _ => s
  | fuel+1, s, promoted, newPid, currPid, path =>
      let nd := readNonLeaf s.store currPid
      match insertKeyInNonLeafNode N nd promoted newPid with
      | some nd2 => unpinAll (writePage s currPid (.nl nd2)) path
      | none =>
          let r := splitNonLeafNode N nd promoted newPid
          let a := allocPage s
          let npid2 := a.1
          let s1 := a.2
          let s2 := writePage (writePage s1 currPid (.nl r.orig)) npid2 (.nl r.newNode)
          let s3 := unpin s2 npid2 true
          let s4 := unpin s3 currPid true
          match path.tail with
          | c :: rest => propLoop M N fuel s4 r.promoted npid2 c (c :: rest)
          | [] =>
              let a2 := allocPage s4
              let rootPid := a2.1
              let s5 := a2.2
              let rootNd : NonLeafNodeInt :=
                ⟨0, aset (aconst (-1)) 0 r.promoted,
                  aset (aset (aconst 0) 0 currPid) 1 npid2⟩
              let s6 := writePage s5 rootPid (.nl rootNd)
              let s7 := { s6 with rootPageNum := rootPid }
              let s8 := unpin s7 npid2 true
              unpin s8 rootPid true

/-- `BTreeIndex::insertEntry` (for a non-null key pointer). -/
def insertEntry (M N : Nat) (fuel : Nat) (s0 : BTState) (key : Int) (rid : RecordId) :
    BTState :=
  let d := descendLoop M N key fuel s0.rootPageNum [s0.rootPageNum] s0
  let dataPid := d.1
  let path0 := d.2.1
  let s1 := d.2.2
  let dataNode := readLeaf s1.store dataPid
  match insertKeyInLeafNode M dataNode key rid with
  | some nd => unpinAll (writePage s1 dataPid (.lf nd)) path0
  | none =>
      let a := allocPage s1
      let newPid := a.1
      let s2 := a.2
      let r := splitLeafNode M dataNode key rid newPid
      let s3 := writePage (writePage s2 dataPid (.lf r.orig)) newPid (.lf r.newLeaf)
      let s4 := unpin s3 newPid true
      let path1 := path0.tail
      propLoop M N fuel s4 r.promoted newPid (path1.headD 0) path1

/-- The index state right after the new-file branch of the constructor has
set up the header page (the first allocated page, id 1) and the empty root
(id 2, a non-leaf with `level = 1` and every slot sentinel), and before the
bulk-load scan of the relation starts. -/
def initState (N : Nat) : BTState :=
  { store := [(2, .nl ⟨1, aconst (-1), aconst 0⟩), (1, .hdr 2)],
    rootPageNum := 2,
    headerPageNum := 1,
    allocNext := 3,
    scanExecuting := false,
    lowValInt := 0,
    highValInt := 0,
    lowOp := .GT,
    highOp := .LT,
    currentPageNum := 0,
    nextEntry := 0,
    unpins := [] }

/-- The new-file branch of the constructor: set up header and empty root,
then bulk-load by calling `insertEntry` for every (key, rid) the relation
scan yields. -/
def buildIndex (M N : Nat) (recs : List (Int × RecordId)) : BTState :=
  recs.foldl (fun s kr => insertEntry M N s.allocNext s kr.1 kr.2) (initState N)

/-- The descent index loop of `getFirstRecordID`:
`while (i < N && lowValInt >= keyArray[i] && keyArray[i] != -1) i++`. -/
def gfrLoop (keys : Nat → Int) (low : Int) : Nat → Nat → Nat
  | 0, i => i
  | fuel+1, i =>
      if low ≥ keys i ∧ keys i ≠ -1 then gfrLoop keys low fuel (i+1) else i

/-- The leaf-entry loop of `getFirstRecordID`: find the first slot whose key
satisfies the lower bound; leaves `nextEntry = M` when none does. -/
def firstEntryLoop (M : Nat) (keys : Nat → Int) (lowOp : Operator) (low : Int) :
    Nat → Nat → Nat
  | 0, ne => ne
  | fuel+1, ne =>
      if ne < M then
        if (lowOp = .GT ∧ keys ne > low) ∨ (lowOp = .GTE ∧ keys ne ≥ low) then ne
        else firstEntryLoop M keys lowOp low fuel (ne+1)
      else ne

/-- `BTreeIndex::getFirstRecordID`: descend from `pageNum` to the leaf that
should contain the first qualifying entry, pinning it as the current page
and setting `nextEntry` (every parent is unpinned clean). -/
def getFirstRecordID (M N : Nat) : Nat → BTState → Nat → BTState
  | 0, s, pageNum => { s with currentPageNum := pageNum }
  | fuel+1, s, pageNum =>
      let s1 := { s with currentPageNum := pageNum }
      let nd := readNonLeaf s1.store pageNum
      let i := gfrLoop nd.keys s1.lowValInt N 0
      if nd.level = 1 then
        let s2 := unpin s1 pageNum false
        let s3 := { s2 with currentPageNum := nd.pageNos i }
        let leaf := readLeaf s3.store (nd.pageNos i)
        { s3 with nextEntry := firstEntryLoop M leaf.keys s3.lowOp s3.lowValInt (M+1) 0 }
      else
        getFirstRecordID M N fuel (unpin s1 pageNum false) (nd.pageNos i)

/-- `BTreeIndex::endScan`. -/
def endScan (s : BTState) : Except BTErr Unit × BTState :=
  if s.scanExecuting = false then (.error .ScanNotInitialized, s)
  else (.ok (), unpin { s with scanExecuting := false } s.currentPageNum false)

/-- `BTreeIndex::startScan`: opcode validation, then the member fields
`lowValInt`/`highValInt` are assigned, then the range check; an executing
scan is ended only after both checks pass; finally descend for the first
record. -/
def startScan (M N : Nat) (fuel : Nat) (s : BTState) (low : Int) (lowOpP : Operator)
    (high : Int) (highOpP : Operator) : Except BTErr Unit × BTState :=
  if (lowOpP ≠ .GT ∧ lowOpP ≠ .GTE) ∨ (highOpP ≠ .LT ∧ highOpP ≠ .LTE) then
    (.error .BadOpcodes, s)
  else
    let s1 := { s with lowValInt := low, highValInt := high }
    if s1.lowValInt > s1.highValInt then (.error .BadScanrange, s1)
    else
      let s2 := if s1.scanExecuting then (endScan s1).2 else s1
      let s3 := { s2 with scanExecuting := true, lowOp := lowOpP, highOp := highOpP }
      (.ok (), getFirstRecordID M N fuel s3 s3.rootPageNum)

/-- The `while (true)` loop of `scanNext`: move to the right sibling when
the leaf is exhausted, skip entries below the lower bound, stop at the upper
bound, emit the first qualifying entry. -/
def scanNextLoop (M : Nat) : Nat → BTState → Except BTErr RecordId × BTState
  | 0, s => (.error .FuelOut, s)
  | fuel+1, s =>
      if s.nextEntry = M then
        if (readLeaf s.store s.currentPageNum).rightSibPageNo = 0 then
          (.error .IndexScanCompleted, unpin s s.currentPageNum false)
        else
          scanNextLoop M fuel
            { unpin s s.currentPageNum false with
                nextEntry := 0,
                currentPageNum := (readLeaf s.store s.currentPageNum).rightSibPageNo }
      else
        if (s.lowOp = .GT ∧ (readLeaf s.store s.currentPageNum).keys s.nextEntry ≤ s.lowValInt) ∨
            (s.lowOp = .GTE ∧ (readLeaf s.store s.currentPageNum).keys s.nextEntry < s.lowValInt) then
          scanNextLoop M fuel { s with nextEntry := s.nextEntry + 1 }
        else
          if (s.highOp = .LT ∧ (readLeaf s.store s.currentPageNum).keys s.nextEntry ≥ s.highValInt) ∨
              (s.highOp = .LTE ∧ (readLeaf s.store s.currentPageNum).keys s.nextEntry > s.highValInt) then
            (.error .IndexScanCompleted, s)
          else
            (.ok ((readLeaf s.store s.currentPageNum).rids s.nextEntry),
             { s with nextEntry := s.nextEntry + 1 })

/-- `BTreeIndex::scanNext`. -/
def scanNext (M : Nat) (fuel : Nat) (s : BTState) : Except BTErr RecordId × BTState :=
  if s.scanExecuting = false then (.error .ScanNotInitialized, s)
  else scanNextLoop M fuel s

/-- Lower-bound satisfaction in the sense of the specification:
strict for `GT`, inclusive for `GTE`. -/
def satLow : Operator → Int → Int → Prop
  | .GT, low, k => low < k
  | .GTE, low, k => low ≤ k
  | _, _, _ => True

/-- Upper-bound satisfaction in the sense of the specification:
strict for `LT`, inclusive for `LTE`. -/
def satHigh : Operator → Int → Int → Prop
  | .LT, high, k => k < high
  | .LTE, high, k => k ≤ high
  | _, _, _ => True

/-- The key of the entry a successful `scanNext` just emitted (it sits one
slot before `nextEntry` on the current page). -/
def emittedKey (s : BTState) : Int :=
  (readLeaf s.store s.currentPageNum).keys (s.nextEntry - 1)

/-- Index of the first sentinel key slot (searched with `fuel` slots from
position `i`). -/
def firstSentinel (keys : Nat → Int) : Nat → Nat → Nat
  | 0, i => i
  | fuel+1, i => if keys i = -1 then i else firstSentinel keys fuel (i+1)

/-- Well-formed leaf of capacity `M`: a dense prefix of non-negative,
non-decreasing keys followed by sentinels only. -/
def leafWF (M : Nat) (L : LeafNodeInt) : Prop :=
  (∀ i, i < firstSentinel L.keys M 0 → 0 ≤ L.keys i) ∧
  (∀ j, j < firstSentinel L.keys M 0 → ∀ i, i ≤ j → L.keys i ≤ L.keys j) ∧
  (∀ i, i < M → firstSentinel L.keys M 0 ≤ i → L.keys i = -1)

/-- Every page of the store, read as a leaf, is well formed. -/
def storeLeafWF (M : Nat) (st : Store) : Prop :=
  ∀ e ∈ st, leafWF M (readLeaf st e.1)

/-- Leaf-chain ordering: every real key of a leaf is at most every real key
of its right sibling. -/
def chainOrdered (M : Nat) (st : Store) : Prop :=
  ∀ e ∈ st, (readLeaf st e.1).rightSibPageNo ≠ 0 →
    ∀ i, i < M → ∀ j, j < M →
      (readLeaf st e.1).keys i ≠ -1 →
      (readLeaf st (readLeaf st e.1).rightSibPageNo).keys j ≠ -1 →
      (readLeaf st e.1).keys i ≤ (readLeaf st (readLeaf st e.1).rightSibPageNo).keys j

/-- No dead middles in the leaf chain: a leaf reached through a sibling
pointer either holds at least one real key or terminates the chain. -/
def chainMidOk (M : Nat) (st : Store) : Prop :=
  ∀ e ∈ st, (readLeaf st e.1).rightSibPageNo ≠ 0 →
    firstSentinel (readLeaf st (readLeaf st e.1).rightSibPageNo).keys M 0 ≠ 0 ∨
    (readLeaf st (readLeaf st e.1).rightSibPageNo).rightSibPageNo = 0

/-- Number of `unPinPage` calls in the log that passed `dirty = true`. -/
def dirtyCount (l : List (Nat × Bool)) : Nat := l.countP (fun e => e.2)

instance {ε α : Type} [DecidableEq ε] [DecidableEq α] : DecidableEq (Except ε α) :=
  fun a b =>
    match a, b with
    | .ok x, .ok y =>
        if h : x = y then .isTrue (h ▸ rfl) else .isFalse (fun hc => h (Except.ok.inj hc))
    | .error x, .error y =>
        if h : x = y then .isTrue (h ▸ rfl) else .isFalse (fun hc => h (Except.error.inj hc))
    | .ok _, .error _ => .isFalse (fun hc => Except.noConfusion hc)
    | .error _, .ok _ => .isFalse (fun hc => Except.noConfusion hc)

instance (op : Operator) (b k : Int) : Decidable (satLow op b k) :=
  match op with
  | .GT => (inferInstance : Decidable (b < k))
  | .GTE => (inferInstance : Decidable (b ≤ k))
  | .LT => .isTrue trivial
  | .LTE => .isTrue trivial

instance (op : Operator) (b k : Int) : Decidable (satHigh op b k) :=
  match op with
  | .LT => (inferInstance : Decidable (k < b))
  | .LTE => (inferInstance : Decidable (k ≤ b))
  | .GT => .isTrue trivial
  | .GTE => .isTrue trivial

instance (M : Nat) (L : LeafNodeInt) : Decidable (leafWF M L) := by
  unfold leafWF; infer_instance

instance (M : Nat) (st : Store) : Decidable (storeLeafWF M st) := by
  unfold storeLeafWF; infer_instance

instance (M : Nat) (st : Store) : Decidable (chainOrdered M st) := by
  unfold chainOrdered; infer_instance

instance (M : Nat) (st : Store) : Decidable (chainMidOk M st) := by
  unfold chainMidOk; infer_instance

/-- Record id with page number `n` and slot 1, for concrete runs. -/
def ridOf (n : Nat) : RecordId := ⟨n, 1⟩

/-- Insertion sequence exhibiting the duplicate-key violation of the
non-leaf subtree invariant (with `M = N = 4`). -/
def c1recs : List (Int × RecordId) :=
  [(1, ridOf 1), (2, ridOf 2), (3, ridOf 3), (4, ridOf 4), (5, ridOf 5), (3, ridOf 6)]

/-- A full non-leaf node (`N = 4`): keys 1,2,3,4 and children 10,11,12,13,14. -/
def nodeC2 : NonLeafNodeInt :=
  ⟨1,
   fun i => if i = 0 then 1 else if i = 1 then 2 else if i = 2 then 3 else
            if i = 3 then 4 else -1,
   fun i => if i ≤ 4 then 10 + i else 0⟩

/-- Concrete leaf holding keys 1, 2 with right sibling page 8. -/
def wLeafA : LeafNodeInt :=
  ⟨fun j => if j = 0 then 1 else if j = 1 then 2 else -1, fun j => ⟨j+1, 1⟩, 8⟩

/-- Concrete leaf holding keys 3, 4, end of the chain. -/
def wLeafB : LeafNodeInt :=
  ⟨fun j => if j = 0 then 3 else if j = 1 then 4 else -1, fun j => ⟨j+11, 1⟩, 0⟩

/-- Concrete two-leaf store for scan runs. -/
def wStore : Store := [(7, .lf wLeafA), (8, .lf wLeafB)]

/-- A state in the middle of an executing scan over `wStore`
(`[GTE 1, LTE 10]`, positioned at slot 0 of page 7). -/
def wScanState : BTState :=
  { store := wStore, rootPageNum := 2, headerPageNum := 1, allocNext := 9,
    scanExecuting := true, lowValInt := 1, highValInt := 10,
    lowOp := .GTE, highOp := .LTE, currentPageNum := 7, nextEntry := 0, unpins := [] }

/-- A full leaf (`M = 4`) with keys 1, 3, 5, 7 and right sibling 9. -/
def wFullLeaf : LeafNodeInt :=
  ⟨fun j => if j = 0 then 1 else if j = 1 then 3 else if j = 2 then 5 else
            if j = 3 then 7 else -1,
   fun j => ⟨j+21, 1⟩, 9⟩

/-- A leaf (`M = 4`) with room, keys 2, 4, 4 and a sentinel in slot 3. -/
def wRoomLeaf : LeafNodeInt :=
  ⟨fun j => if j = 0 then 2 else if j = 1 then 4 else if j = 2 then 4 else -1,
   fun j => ⟨j+31, 1⟩, 0⟩

theorem dirtyCount_cons_false (p : Nat) (l : List (Nat × Bool)) :
    dirtyCount ((p, false) :: l) = dirtyCount l := by
  simp [dirtyCount, List.countP_cons]

theorem unpin_false_frame (s : BTState) (p : Nat) :
    (unpin s p false).store = s.store ∧
    (unpin s p false).rootPageNum = s.rootPageNum ∧
    (unpin s p false).headerPageNum = s.headerPageNum ∧
    dirtyCount (unpin s p false).unpins = dirtyCount s.unpins :=
  ⟨rfl, rfl, rfl, dirtyCount_cons_false p s.unpins⟩

theorem gfr_frame (M N : Nat) : ∀ (fuel : Nat) (s : BTState) (p : Nat),
    (getFirstRecordID M N fuel s p).store = s.store ∧
    (getFirstRecordID M N fuel s p).rootPageNum = s.rootPageNum ∧
    (getFirstRecordID M N fuel s p).headerPageNum = s.headerPageNum ∧
    dirtyCount (getFirstRecordID M N fuel s p).unpins = dirtyCount s.unpins
  | 0, _, _ => ⟨rfl, rfl, rfl, rfl⟩
  | fuel+1, s, p => by
      simp only [getFirstRecordID]
      split
      · exact ⟨rfl, rfl, rfl, dirtyCount_cons_false _ _⟩
      · have ih := gfr_frame M N fuel
          (unpin { s with currentPageNum := p } p false)
          ((readNonLeaf s.store p).pageNos
            (gfrLoop (readNonLeaf s.store p).keys s.lowValInt N 0))
        exact ⟨ih.1, ih.2.1, ih.2.2.1, ih.2.2.2.trans (dirtyCount_cons_false _ _)⟩

theorem scanLoop_frame (M : Nat) : ∀ (fuel : Nat) (s : BTState),
    (scanNextLoop M fuel s).2.store = s.store ∧
    (scanNextLoop M fuel s).2.rootPageNum = s.rootPageNum ∧
    (scanNextLoop M fuel s).2.headerPageNum = s.headerPageNum ∧
    dirtyCount (scanNextLoop M fuel s).2.unpins = dirtyCount s.unpins
  | 0, _ => ⟨rfl, rfl, rfl, rfl⟩
  | fuel+1, s => by
      simp only [scanNextLoop]
      split
      · split
        · exact ⟨rfl, rfl, rfl, dirtyCount_cons_false _ _⟩
        · have ih := scanLoop_frame M fuel
            { unpin s s.currentPageNum false with
                nextEntry := 0,
                currentPageNum := (readLeaf s.store s.currentPageNum).rightSibPageNo }
          exact ⟨ih.1, ih.2.1, ih.2.2.1, ih.2.2.2.trans (dirtyCount_cons_false _ _)⟩
      · split
        · exact scanLoop_frame M fuel { s with nextEntry := s.nextEntry + 1 }
        · split
          · exact ⟨rfl, rfl, rfl, rfl⟩
          · exact ⟨rfl, rfl, rfl, rfl⟩

theorem endScan_frame (s : BTState) :
    (endScan s).2.store = s.store ∧
    (endScan s).2.rootPageNum = s.rootPageNum ∧
    (endScan s).2.headerPageNum = s.headerPageNum ∧
    dirtyCount (endScan s).2.unpins = dirtyCount s.unpins := by
  unfold endScan
  split
  · exact ⟨rfl, rfl, rfl, rfl⟩
  · exact ⟨rfl, rfl, rfl, dirtyCount_cons_false _ _⟩

theorem startScan_frame (M N fuel : Nat) (s : BTState) (low high : Int)
    (lop hop : Operator) :
    (startScan M N fuel s low lop high hop).2.store = s.store ∧
    (startScan M N fuel s low lop high hop).2.rootPageNum = s.rootPageNum ∧
    (startScan M N fuel s low lop high hop).2.headerPageNum = s.headerPageNum ∧
    dirtyCount (startScan M N fuel s low lop high hop).2.unpins = dirtyCount s.unpins := by
  unfold startScan
  split
  · exact ⟨rfl, rfl, rfl, rfl⟩
  · simp only []
    split
    · exact ⟨rfl, rfl, rfl, rfl⟩
    · set s1 : BTState := { s with lowValInt := low, highValInt := high } with hs1
      have hend := endScan_frame s1
      have h2 : (if s1.scanExecuting then (endScan s1).2 else s1).store = s.store ∧
          (if s1.scanExecuting then (endScan s1).2 else s1).rootPageNum = s.rootPageNum ∧
          (if s1.scanExecuting then (endScan s1).2 else s1).headerPageNum = s.headerPageNum ∧
          dirtyCount (if s1.scanExecuting then (endScan s1).2 else s1).unpins =
            dirtyCount s.unpins := by
        split
        · exact hend
        · exact ⟨rfl, rfl, rfl, rfl⟩
      have hg := gfr_frame M N fuel
        { (if s1.scanExecuting then (endScan s1).2 else s1) with
            scanExecuting := true, lowOp := lop, highOp := hop }
        ((if s1.scanExecuting then (endScan s1).2 else s1).rootPageNum)
      exact ⟨hg.1.trans h2.1, hg.2.1.trans h2.2.1, hg.2.2.1.trans h2.2.2.1,
             hg.2.2.2.trans h2.2.2.2⟩

/-- Claim C10: `startScan`, `scanNext`, and `endScan` never modify any page
of the index file: the page store, the root page number, and the header page
number are unchanged by each operation (hence by any sequence of them), and
no `unPinPage` call they make passes `dirty = true` (the count of dirty
unpins in the log is unchanged). -/
theorem c10_scan_ops_readonly (M N fuel : Nat) (s : BTState) (low high : Int)
    (lop hop : Operator) :
    ((startScan M N fuel s low lop high hop).2.store = s.store ∧
     (startScan M N fuel s low lop high hop).2.rootPageNum = s.rootPageNum ∧
     (startScan M N fuel s low lop high hop).2.headerPageNum = s.headerPageNum ∧
     dirtyCount (startScan M N fuel s low lop high hop).2.unpins = dirtyCount s.unpins) ∧
    ((scanNext M fuel s).2.store = s.store ∧
     (scanNext M fuel s).2.rootPageNum = s.rootPageNum ∧
     (scanNext M fuel s).2.headerPageNum = s.headerPageNum ∧
     dirtyCount (scanNext M fuel s).2.unpins = dirtyCount s.unpins) ∧
    ((endScan s).2.store = s.store ∧
     (endScan s).2.rootPageNum = s.rootPageNum ∧
     (endScan s).2.headerPageNum = s.headerPageNum ∧
     dirtyCount (endScan s).2.unpins = dirtyCount s.unpins) := by
  refine ⟨startScan_frame M N fuel s low high lop hop, ?_, endScan_frame s⟩
  unfold scanNext
  split
  · exact ⟨rfl, rfl, rfl, rfl⟩
  · exact scanLoop_frame M fuel s

/-- Claim C6: `startScan` fails with `BadOpcodes` iff the operators are
invalid (`lowOp ∉ (GT, GTE)` or `highOp ∉ (LT, LTE)`), and this holds
regardless of the values, so the opcode check precedes the range check;
with valid operators it fails with `BadScanrange` iff `lowVal > highVal`. -/
theorem c6_startScan_validation (M N fuel : Nat) (s : BTState) (low high : Int)
    (lop hop : Operator) :
    ((startScan M N fuel s low lop high hop).1 = .error .BadOpcodes ↔
      ¬((lop = .GT ∨ lop = .GTE) ∧ (hop = .LT ∨ hop = .LTE))) ∧
    (((lop = .GT ∨ lop = .GTE) ∧ (hop = .LT ∨ hop = .LTE)) →
      ((startScan M N fuel s low lop high hop).1 = .error .BadScanrange ↔ high < low)) := by
  unfold startScan
  by_cases hv : (lop ≠ .GT ∧ lop ≠ .GTE) ∨ (hop ≠ .LT ∧ hop ≠ .LTE)
  · rw [if_pos hv]
    constructor
    · simp only [true_iff, show (Except.error BTErr.BadOpcodes :
        Except BTErr Unit) = .error .BadOpcodes ↔ True from by simp]
      tauto
    · intro hvalid
      exact absurd hvalid (by tauto)
  · rw [if_neg hv]
    simp only []
    constructor
    · split
      · simp only [show (Except.error BTErr.BadScanrange :
          Except BTErr Unit) = .error .BadOpcodes ↔ False from by simp, false_iff,
          not_not]
        tauto
      · simp only [show (Except.ok () : Except BTErr Unit) = .error .BadOpcodes ↔ False
          from by simp, false_iff, not_not]
        tauto
    · intro _
      split
      · next hlt =>
          simp only [gt_iff_lt] at hlt
          simp [hlt]
      · next hlt =>
          simp only [gt_iff_lt] at hlt
          simp [hlt]

/-- Witness for C6 at concrete inputs: with `lowOp = LT` the scan fails with
`BadOpcodes` (even though the range is also bad), and with valid operators
and `lowVal = 7 > 3 = highVal` it fails with `BadScanrange`. -/
theorem c6_startScan_validation_witness :
    ((startScan 4 4 5 wScanState 7 .LT 3 .LT).1 = .error .BadOpcodes ↔
      ¬((Operator.LT = .GT ∨ Operator.LT = .GTE) ∧
        (Operator.LT = .LT ∨ Operator.LT = .LTE))) ∧
    ((startScan 4 4 5 wScanState 7 .GT 3 .LT).1 = .error .BadScanrange ↔ (3 : Int) < 7) :=
  ⟨(c6_startScan_validation 4 4 5 wScanState 7 3 .LT .LT).1,
   (c6_startScan_validation 4 4 5 wScanState 7 3 .GT .LT).2 (by decide)⟩

/-- Claim C7: the new-file branch of construction makes the header the first
allocated page (page id 1, recording root page 2), initializes the empty
root (page 2) as a non-leaf with `level = 1`, all key slots `-1` and all
child slots `INVALID_PAGE = 0`, and only then bulk-loads by folding
`insertEntry` over the scanned relation starting from that state. -/
theorem c7_construct_new_file (M N : Nat) (recs : List (Int × RecordId)) :
    buildIndex M N recs =
      recs.foldl (fun s kr => insertEntry M N s.allocNext s kr.1 kr.2) (initState N) ∧
    (initState N).headerPageNum = 1 ∧
    lookupPage (initState N).store 1 = some (.hdr 2) ∧
    (initState N).rootPageNum = 2 ∧
    (readNonLeaf (initState N).store 2).level = 1 ∧
    (∀ i, i < N → (readNonLeaf (initState N).store 2).keys i = -1) ∧
    (∀ i, i ≤ N → (readNonLeaf (initState N).store 2).pageNos i = 0) := by
  refine ⟨rfl, rfl, rfl, rfl, rfl, ?_, ?_⟩ <;> exact fun i _ => rfl

/-- Claim C8 as stated is false: a `BadScanrange` failure of `startScan`
during an executing scan has already overwritten the recorded bounds.
Concretely: `wScanState` is scanning with `lowValInt = 1`, and after the
failing `startScan(7, GT, 3, LT)` the state records `lowValInt = 7`. -/
theorem c8_counterexample :
    wScanState.scanExecuting = true ∧
    (startScan 4 4 5 wScanState 7 .GT 3 .LT).1 = .error .BadScanrange ∧
    wScanState.lowValInt = 1 ∧
    (startScan 4 4 5 wScanState 7 .GT 3 .LT).2.lowValInt = 7 ∧
    (startScan 4 4 5 wScanState 7 .GT 3 .LT).2.lowValInt ≠ wScanState.lowValInt := by
  refine ⟨rfl, rfl, rfl, rfl, ?_⟩
  decide

/-- Claim C8, amended: if `startScan` is called while a scan is executing
and fails validation, the scan remains in the `Scanning` state with the same
current leaf, position, and operators; a `BadOpcodes` failure leaves the
whole state untouched, but a `BadScanrange` failure has already overwritten
the recorded `lowValInt`/`highValInt` with the new parameters (validation
still happens before the old scan is ended). -/
theorem c8_failed_restart (M N fuel : Nat) (s : BTState) (low high : Int)
    (lop hop : Operator) (hscan : s.scanExecuting = true) :
    (¬((lop = .GT ∨ lop = .GTE) ∧ (hop = .LT ∨ hop = .LTE)) →
      (startScan M N fuel s low lop high hop).2 = s) ∧
    (((lop = .GT ∨ lop = .GTE) ∧ (hop = .LT ∨ hop = .LTE)) → high < low →
      (startScan M N fuel s low lop high hop).2 =
        { s with lowValInt := low, highValInt := high }) := by
  constructor
  · intro hbad
    unfold startScan
    rw [if_pos (by tauto)]
  · intro hgood hlt
    unfold startScan
    rw [if_neg (by tauto)]
    simp only []
    rw [if_pos (by exact hlt)]

/-- Witness for C8's amended statement: applied to the concrete scanning
state `wScanState`, for both a `BadOpcodes` call and a `BadScanrange`
call. -/
theorem c8_failed_restart_witness :
    wScanState.scanExecuting = true ∧
    (startScan 4 4 5 wScanState 7 .LT 3 .LT).2 = wScanState ∧
    (startScan 4 4 5 wScanState 7 .GT 3 .LT).2 =
      { wScanState with lowValInt := 7, highValInt := 3 } :=
  ⟨rfl,
   (c8_failed_restart 4 4 5 wScanState 7 3 .LT .LT rfl).1 (by decide),
   (c8_failed_restart 4 4 5 wScanState 7 3 .GT .LT rfl).2 (by decide) (by decide)⟩

/-- Claim C1 does not hold of the code: with `M = N = 4`, bulk-loading the
keys 1, 2, 3, 4, 5 and then inserting the duplicate key 3 (an ordinary
public `insertEntry`) leaves the root (page 2) with `keyArray[1] = 3` while
the leaf at `pageNoArray[1]` (page 3) contains the key 3 at slot 2 — so the
subtree at `pageNoArray[1]` does not contain only keys `< keyArray[1]`.
The descent loop sends a key equal to a separator into the left subtree,
contradicting both the stated invariant and the scan-side descent (which
moves right on equality), so inserted duplicates become unreachable to
scans. -/
theorem c1_invariant_violated :
    (buildIndex 4 4 c1recs).rootPageNum = 2 ∧
    (readNonLeaf (buildIndex 4 4 c1recs).store 2).keys 1 = 3 ∧
    (readNonLeaf (buildIndex 4 4 c1recs).store 2).pageNos 1 = 3 ∧
    (readLeaf (buildIndex 4 4 c1recs).store 3).keys 2 = 3 ∧
    ¬((readLeaf (buildIndex 4 4 c1recs).store 3).keys 2 <
        (readNonLeaf (buildIndex 4 4 c1recs).store 2).keys 1) := by
  refine ⟨rfl, rfl, rfl, rfl, ?_⟩
  decide

/-- Claim C2 does not hold of the code: `splitNonLeafNode` builds its merge
arrays from the freshly zero-initialized new node instead of the node being
split.  On the full parent `nodeC2` (keys 1,2,3,4; children 10..14) with
incoming key 5 and child 15, the claim requires promoted key 3, left half
keys (1,2) with children (10,11,12) and right half keys (4,5) with children
(13,14,15); instead the code promotes `-1`, wipes the parent (including
`pageNoArray[0]`, which becomes 0 instead of the preserved 10), and the new
node keeps only the incoming key. -/
theorem c2_splitNonLeafNode_wrong :
    (splitNonLeafNode 4 nodeC2 5 15).promoted = -1 ∧
    (splitNonLeafNode 4 nodeC2 5 15).promoted ≠ 3 ∧
    (splitNonLeafNode 4 nodeC2 5 15).orig.keys 0 = -1 ∧
    (splitNonLeafNode 4 nodeC2 5 15).orig.keys 0 ≠ 1 ∧
    (splitNonLeafNode 4 nodeC2 5 15).orig.pageNos 0 = 0 ∧
    nodeC2.pageNos 0 = 10 ∧
    (splitNonLeafNode 4 nodeC2 5 15).newNode.keys 0 = -1 ∧
    (splitNonLeafNode 4 nodeC2 5 15).newNode.keys 0 ≠ 4 ∧
    (splitNonLeafNode 4 nodeC2 5 15).newNode.keys 1 = 5 ∧
    (splitNonLeafNode 4 nodeC2 5 15).newNode.pageNos 2 = 15 := by
  refine ⟨rfl, by decide, rfl, by decide, rfl, rfl, rfl, by decide, rfl, rfl⟩

/-- Claim C3 does not hold of the code: the "empty root" population is
guarded only by `idx == 0`, not by `keyArray[0]` being the sentinel.  After
inserting key 10 into a fresh index (root keys `[10,-1,-1,-1]`, children
pages 4 and 3), inserting key 5 — a key `≤` every root key of a non-empty
tree — re-initializes the root in place: `keyArray[0]` becomes 5 and
`pageNoArray[0..1]` are replaced by two freshly allocated leaves (pages 6
and 5), orphaning the old children. -/
theorem c3_reinit_on_nonempty_root :
    (readNonLeaf (buildIndex 4 4 [(10, ridOf 1)]).store 2).keys 0 = 10 ∧
    (readNonLeaf (buildIndex 4 4 [(10, ridOf 1)]).store 2).keys 0 ≠ -1 ∧
    (readNonLeaf (buildIndex 4 4 [(10, ridOf 1)]).store 2).pageNos 0 = 4 ∧
    (readNonLeaf (buildIndex 4 4 [(10, ridOf 1)]).store 2).pageNos 1 = 3 ∧
    (readNonLeaf (buildIndex 4 4 [(10, ridOf 1), (5, ridOf 2)]).store 2).keys 0 = 5 ∧
    (readNonLeaf (buildIndex 4 4 [(10, ridOf 1), (5, ridOf 2)]).store 2).pageNos 0 = 6 ∧
    (readNonLeaf (buildIndex 4 4 [(10, ridOf 1), (5, ridOf 2)]).store 2).pageNos 1 = 5 ∧
    (readLeaf (buildIndex 4 4 [(10, ridOf 1), (5, ridOf 2)]).store 5).keys 0 = 5 := by
  refine ⟨rfl, by decide, rfl, rfl, rfl, rfl, rfl, rfl⟩

theorem aset_self {α : Type} (a : Nat → α) (i : Nat) (v : α) : aset a i v i = v := by
  simp [aset]

theorem aset_ne {α : Type} (a : Nat → α) (i : Nat) (v : α) (j : Nat) (h : j ≠ i) :
    aset a i v j = a j := by
  simp [aset, h]

theorem findIdxLoop_eq (keys : Nat → Int) (key : Int) :
    ∀ (fuel idx0 p : Nat), idx0 ≤ p → p ≤ idx0 + fuel →
      (∀ i, idx0 ≤ i → i < p → keys i ≠ -1 ∧ keys i < key) →
      (keys p = -1 ∨ key ≤ keys p) →
      findIdxLoop keys key fuel idx0 = p
  | 0, idx0, p, h1, h2, _, _ => by
      have h : idx0 = p := by omega
      simp [findIdxLoop, h]
  | fuel+1, idx0, p, h1, h2, h3, h4 => by
      rcases Nat.eq_or_lt_of_le h1 with heq | hlt
      · subst heq
        have hcond : ¬(keys idx0 ≠ -1 ∧ keys idx0 < key) := by
          rcases h4 with h | h
          · exact fun hc => hc.1 h
          · exact fun hc => absurd hc.2 (not_lt.mpr h)
        simp only [findIdxLoop, if_neg hcond]
      · have hcond : keys idx0 ≠ -1 ∧ keys idx0 < key := h3 idx0 le_rfl hlt
        simp only [findIdxLoop, if_pos hcond]
        exact findIdxLoop_eq keys key fuel (idx0+1) p hlt (by omega)
          (fun i hi hip => h3 i (by omega) hip) h4

theorem shiftInsLeaf_eq :
    ∀ (fuel : Nat) (ks : Nat → Int) (rs : Nat → RecordId) (k : Int) (r : RecordId)
      (idx c : Nat), idx ≤ c → c < idx + fuel →
      (∀ j, idx ≤ j → j < c → ks j ≠ -1) → ks c = -1 →
      (∀ j, (shiftInsLeaf fuel ks rs k r idx).1 j =
        if j < idx then ks j else if j = idx then k else
        if j ≤ c then ks (j-1) else ks j) ∧
      (∀ j, (shiftInsLeaf fuel ks rs k r idx).2 j =
        if j < idx then rs j else if j = idx then r else
        if j ≤ c then rs (j-1) else rs j)
  | 0, _, _, _, _, _, _, h1, h2, _, _ => absurd h2 (by omega)
  | fuel+1, ks, rs, k, r, idx, c, h1, h2, h3, h4 => by
      by_cases hid : ks idx ≠ -1
      · have hlt : idx < c := by
          rcases Nat.eq_or_lt_of_le h1 with heq | h
          · exact absurd (heq ▸ h4) hid
          · exact h
        simp only [shiftInsLeaf, if_pos hid]
        have ih := shiftInsLeaf_eq fuel (aset ks idx k) (aset rs idx r) (ks idx) (rs idx)
          (idx+1) c hlt (by omega)
          (fun j hj hjc => by
            rw [aset_ne _ _ _ _ (by omega)]
            exact h3 j (by omega) hjc)
          (by rw [aset_ne _ _ _ _ (by omega)]; exact h4)
        constructor
        · intro j
          rw [ih.1 j]
          simp only [aset]
          split_ifs <;> first | rfl | (exfalso; omega) | (congr 1; omega)
        · intro j
          rw [ih.2 j]
          simp only [aset]
          split_ifs <;> first | rfl | (exfalso; omega) | (congr 1; omega)
      · push_neg at hid
        have heq : idx = c := by
          rcases Nat.eq_or_lt_of_le h1 with h | h
          · exact h
          · exact absurd hid (h3 idx le_rfl h)
        simp only [shiftInsLeaf, if_neg (not_not_intro hid)]
        subst heq
        constructor
        · intro j
          simp only [aset]
          split_ifs <;> first | rfl | (exfalso; omega) | (congr 1; omega)
        · intro j
          simp only [aset]
          split_ifs <;> first | rfl | (exfalso; omega) | (congr 1; omega)

theorem insertKeyInLeafNode_eq (M : Nat) (L : LeafNodeInt) (key : Int) (rid : RecordId)
    (c p : Nat) (hcM : c < M)
    (hdense : ∀ j, j < c → L.keys j ≠ -1)
    (hsent : ∀ i, c ≤ i → i < M → L.keys i = -1)
    (hpc : p ≤ c)
    (hbelow : ∀ i, i < p → L.keys i < key)
    (hstop : L.keys p = -1 ∨ key ≤ L.keys p) :
    insertKeyInLeafNode M L key rid =
      some { L with keys := (shiftInsLeaf (M+1) L.keys L.rids key rid p).1,
                    rids := (shiftInsLeaf (M+1) L.keys L.rids key rid p).2 } ∧
    (∀ j, (shiftInsLeaf (M+1) L.keys L.rids key rid p).1 j =
      if j < p then L.keys j else if j = p then key else
      if j ≤ c then L.keys (j-1) else L.keys j) ∧
    (∀ j, (shiftInsLeaf (M+1) L.keys L.rids key rid p).2 j =
      if j < p then L.rids j else if j = p then rid else
      if j ≤ c then L.rids (j-1) else L.rids j) := by
  have hroom : ¬(L.keys (M-1) ≠ -1) := not_not_intro (hsent (M-1) (by omega) (by omega))
  have hfind : findIdxLoop L.keys key M 0 = p :=
    findIdxLoop_eq L.keys key M 0 p (Nat.zero_le p) (by omega)
      (fun i _ hip => ⟨hdense i (by omega), hbelow i hip⟩) hstop
  have hshift := shiftInsLeaf_eq (M+1) L.keys L.rids key rid p c hpc (by omega)
    (fun j _ hjc => hdense j hjc) (hsent c le_rfl hcM)
  refine ⟨?_, hshift.1, hshift.2⟩
  unfold insertKeyInLeafNode
  rw [if_neg hroom]
  simp only []
  rw [hfind]

theorem leafMoveLoop_eq (mid : Nat) :
    ∀ (fuel i : Nat) (d n : LeafNodeInt), mid ≤ i →
      (∀ j, (leafMoveLoop mid fuel i d n).1.keys j =
        if i ≤ j ∧ j < i + fuel then -1 else d.keys j) ∧
      (∀ j, (leafMoveLoop mid fuel i d n).1.rids j = d.rids j) ∧
      (leafMoveLoop mid fuel i d n).1.rightSibPageNo = d.rightSibPageNo ∧
      (∀ j, (leafMoveLoop mid fuel i d n).2.keys j =
        if i - mid ≤ j ∧ j < i - mid + fuel then d.keys (mid + j) else n.keys j) ∧
      (∀ j, (leafMoveLoop mid fuel i d n).2.rids j =
        if i - mid ≤ j ∧ j < i - mid + fuel then d.rids (mid + j) else n.rids j) ∧
      (leafMoveLoop mid fuel i d n).2.rightSibPageNo = n.rightSibPageNo
  | 0, i, d, n, _ => by
      refine ⟨?_, fun _ => rfl, rfl, ?_, ?_, rfl⟩ <;>
        (intro j; rw [if_neg (by omega)]) <;> rfl
  | fuel+1, i, d, n, hmi => by
      have ih := leafMoveLoop_eq mid fuel (i+1)
        { d with keys := aset d.keys i (-1) }
        { n with keys := aset n.keys (i-mid) (d.keys i),
                 rids := aset n.rids (i-mid) (d.rids i) }
        (by omega)
      refine ⟨?_, ?_, ih.2.2.1, ?_, ?_, ih.2.2.2.2.2⟩
      · intro j
        rw [show leafMoveLoop mid (fuel+1) i d n = leafMoveLoop mid fuel (i+1)
            { d with keys := aset d.keys i (-1) }
            { n with keys := aset n.keys (i-mid) (d.keys i),
                     rids := aset n.rids (i-mid) (d.rids i) } from rfl]
        rw [ih.1 j]
        simp only [aset]
        split_ifs <;> first | rfl | (exfalso; omega) | (congr 1; omega)
      · intro j
        exact (ih.2.1 j)
      · intro j
        rw [show leafMoveLoop mid (fuel+1) i d n = leafMoveLoop mid fuel (i+1)
            { d with keys := aset d.keys i (-1) }
            { n with keys := aset n.keys (i-mid) (d.keys i),
                     rids := aset n.rids (i-mid) (d.rids i) } from rfl]
        rw [ih.2.2.2.1 j]
        simp only [aset]
        split_ifs <;> first | rfl | (exfalso; omega) | (congr 1; omega)
      · intro j
        rw [show leafMoveLoop mid (fuel+1) i d n = leafMoveLoop mid fuel (i+1)
            { d with keys := aset d.keys i (-1) }
            { n with keys := aset n.keys (i-mid) (d.keys i),
                     rids := aset n.rids (i-mid) (d.rids i) } from rfl]
        rw [ih.2.2.2.2.1 j]
        simp only [aset]
        split_ifs <;> first | rfl | (exfalso; omega) | (congr 1; omega)

/-- Claim C9: when `insertEntry` inserts a key equal to keys already present
in the target leaf (and the leaf has room, dense prefix `c < M`), the new
(key, rid) pair is written at the first slot `p` whose key is `≥` the new
key (characterized by `hbelow`/`hstop`), the suffix is shifted one slot
right, and in particular an existing equal key at `p` ends up one slot to
the right of the new pair — so duplicate rids appear in reverse insertion
order. -/
theorem c9_duplicate_insert_position (M : Nat) (L : LeafNodeInt) (key : Int)
    (rid : RecordId) (c p : Nat) (hcM : c < M) (hkey : 0 ≤ key)
    (hdense : ∀ j, j < c → L.keys j ≠ -1)
    (hsent : ∀ i, c ≤ i → i < M → L.keys i = -1)
    (hpc : p ≤ c)
    (hbelow : ∀ i, i < p → L.keys i < key)
    (hstop : L.keys p = -1 ∨ key ≤ L.keys p) :
    ∃ L2, insertKeyInLeafNode M L key rid = some L2 ∧
      L2.keys p = key ∧ L2.rids p = rid ∧
      (∀ j, j < p → L2.keys j = L.keys j ∧ L2.rids j = L.rids j) ∧
      (∀ j, p < j → j ≤ c → L2.keys j = L.keys (j-1) ∧ L2.rids j = L.rids (j-1)) ∧
      (∀ j, c < j → L2.keys j = L.keys j) ∧
      (L.keys p = key → p < c ∧ L2.keys (p+1) = key ∧ L2.rids (p+1) = L.rids p) := by
  obtain ⟨hres, hk, hr⟩ :=
    insertKeyInLeafNode_eq M L key rid c p hcM hdense hsent hpc hbelow hstop
  refine ⟨_, hres, ?_, ?_, ?_, ?_, ?_, ?_⟩ <;> dsimp only
  · rw [hk p, if_neg (by omega), if_pos rfl]
  · rw [hr p, if_neg (by omega), if_pos rfl]
  · intro j hj
    constructor
    · rw [hk j, if_pos hj]
    · rw [hr j, if_pos hj]
  · intro j hj1 hj2
    constructor
    · rw [hk j, if_neg (by omega), if_neg (by omega), if_pos hj2]
    · rw [hr j, if_neg (by omega), if_neg (by omega), if_pos hj2]
  · intro j hj
    rw [hk j, if_neg (by omega), if_neg (by omega), if_neg (by omega)]
  · intro hdup
    have hpltc : p < c := by
      rcases Nat.eq_or_lt_of_le hpc with h | h
      · exfalso
        have := hsent p (by omega) (by omega)
        rw [this] at hdup
        omega
      · exact h
    refine ⟨hpltc, ?_, ?_⟩
    · rw [hk (p+1), if_neg (by omega), if_neg (by omega), if_pos (by omega)]
      simpa using hdup
    · rw [hr (p+1), if_neg (by omega), if_neg (by omega), if_pos (by omega)]
      simp

/-- Witness for C9: inserting the duplicate key 4 into the leaf with keys
(2, 4, 4, sentinel) writes it at slot 1 (the first slot with key `≥ 4`) and
shifts the old equal keys right, leaving the new rid before the old ones. -/
theorem c9_duplicate_insert_position_witness :
    (3 < 4 ∧ (0:Int) ≤ 4 ∧ (∀ j, j < 3 → wRoomLeaf.keys j ≠ -1) ∧
      (∀ i, i < 1 → wRoomLeaf.keys i < 4) ∧ (4:Int) ≤ wRoomLeaf.keys 1) ∧
    (∃ L2, insertKeyInLeafNode 4 wRoomLeaf 4 ⟨99, 9⟩ = some L2 ∧
      L2.keys 1 = 4 ∧ L2.rids 1 = ⟨99, 9⟩ ∧
      (∀ j, j < 1 → L2.keys j = wRoomLeaf.keys j ∧ L2.rids j = wRoomLeaf.rids j) ∧
      (∀ j, 1 < j → j ≤ 3 → L2.keys j = wRoomLeaf.keys (j-1) ∧
        L2.rids j = wRoomLeaf.rids (j-1)) ∧
      (∀ j, 3 < j → L2.keys j = wRoomLeaf.keys j) ∧
      (wRoomLeaf.keys 1 = 4 → 1 < 3 ∧ L2.keys 2 = 4 ∧ L2.rids 2 = wRoomLeaf.rids 1)) :=
  ⟨⟨by decide, by decide, by decide, by decide, by decide⟩,
   c9_duplicate_insert_position 4 wRoomLeaf 4 ⟨99, 9⟩ 3 1 (by decide) (by decide)
     (by decide) (by decide) (by decide) (by decide) (Or.inr (by decide))⟩

theorem splitLeafNode_cases (M : Nat) (L : LeafNodeInt) (key : Int) (rid : RecordId)
    (newPid : Nat) :
    splitLeafNode M L key rid newPid =
      (if key < (leafMoveLoop ((M+1)/2) (M - (M+1)/2) ((M+1)/2) L defaultLeaf).2.keys 0 then
        ⟨{ (insertKeyInLeafNode M
              (leafMoveLoop ((M+1)/2) (M - (M+1)/2) ((M+1)/2) L defaultLeaf).1 key rid).getD
              (leafMoveLoop ((M+1)/2) (M - (M+1)/2) ((M+1)/2) L defaultLeaf).1 with
            rightSibPageNo := newPid },
         { (leafMoveLoop ((M+1)/2) (M - (M+1)/2) ((M+1)/2) L defaultLeaf).2 with
            rightSibPageNo :=
              ((insertKeyInLeafNode M
                  (leafMoveLoop ((M+1)/2) (M - (M+1)/2) ((M+1)/2) L defaultLeaf).1 key rid).getD
                  (leafMoveLoop ((M+1)/2) (M - (M+1)/2) ((M+1)/2) L defaultLeaf).1).rightSibPageNo },
         (leafMoveLoop ((M+1)/2) (M - (M+1)/2) ((M+1)/2) L defaultLeaf).2.keys 0⟩
      else
        ⟨{ (leafMoveLoop ((M+1)/2) (M - (M+1)/2) ((M+1)/2) L defaultLeaf).1 with
            rightSibPageNo := newPid },
         { (insertKeyInLeafNode M
              (leafMoveLoop ((M+1)/2) (M - (M+1)/2) ((M+1)/2) L defaultLeaf).2 key rid).getD
              (leafMoveLoop ((M+1)/2) (M - (M+1)/2) ((M+1)/2) L defaultLeaf).2 with
            rightSibPageNo :=
              (leafMoveLoop ((M+1)/2) (M - (M+1)/2) ((M+1)/2) L defaultLeaf).1.rightSibPageNo },
         ((insertKeyInLeafNode M
             (leafMoveLoop ((M+1)/2) (M - (M+1)/2) ((M+1)/2) L defaultLeaf).2 key rid).getD
             (leafMoveLoop ((M+1)/2) (M - (M+1)/2) ((M+1)/2) L defaultLeaf).2).keys 0⟩) := by
  unfold splitLeafNode
  simp only []
  split <;> rfl

/-- Claim C4: for every full leaf and new (key, rid) pair, `splitLeafNode`
with `mid = (M+1)/2` moves entries `[mid, M)` of the original into positions
`[0, M-mid)` of the new leaf, clears the moved key slots to the sentinel,
inserts the new pair into the half chosen by comparing against the new
leaf's first key (which is `L.keys mid` at comparison time) at the first
position with key `≥` the new key, links the new leaf's `rightSibPageNo` to
the original's former sibling and the original's to the new page id, and
copies up the new leaf's first key as the promoted separator. -/
theorem c4_splitLeafNode (M mid : Nat) (L : LeafNodeInt) (key : Int) (rid : RecordId)
    (newPid : Nat) (hM : 2 ≤ M) (hmid : mid = (M+1)/2)
    (hfull : ∀ i, i < M → L.keys i ≠ -1) :
    (splitLeafNode M L key rid newPid).newLeaf.rightSibPageNo = L.rightSibPageNo ∧
    (splitLeafNode M L key rid newPid).orig.rightSibPageNo = newPid ∧
    (splitLeafNode M L key rid newPid).promoted =
      (splitLeafNode M L key rid newPid).newLeaf.keys 0 ∧
    (key < L.keys mid →
      (∀ j, j < M - mid →
        (splitLeafNode M L key rid newPid).newLeaf.keys j = L.keys (mid + j) ∧
        (splitLeafNode M L key rid newPid).newLeaf.rids j = L.rids (mid + j)) ∧
      (∀ j, M - mid ≤ j → (splitLeafNode M L key rid newPid).newLeaf.keys j = -1) ∧
      (∃ p, p ≤ mid ∧ (∀ i, i < p → L.keys i < key) ∧ (p = mid ∨ key ≤ L.keys p) ∧
        (∀ j, j < p → (splitLeafNode M L key rid newPid).orig.keys j = L.keys j ∧
          (splitLeafNode M L key rid newPid).orig.rids j = L.rids j) ∧
        (splitLeafNode M L key rid newPid).orig.keys p = key ∧
        (splitLeafNode M L key rid newPid).orig.rids p = rid ∧
        (∀ j, p < j → j ≤ mid →
          (splitLeafNode M L key rid newPid).orig.keys j = L.keys (j-1) ∧
          (splitLeafNode M L key rid newPid).orig.rids j = L.rids (j-1)) ∧
        (∀ j, mid < j → j < M → (splitLeafNode M L key rid newPid).orig.keys j = -1))) ∧
    (L.keys mid ≤ key →
      (∀ j, j < mid → (splitLeafNode M L key rid newPid).orig.keys j = L.keys j ∧
        (splitLeafNode M L key rid newPid).orig.rids j = L.rids j) ∧
      (∀ j, mid ≤ j → j < M → (splitLeafNode M L key rid newPid).orig.keys j = -1) ∧
      (∃ p, p ≤ M - mid ∧ (∀ i, i < p → L.keys (mid + i) < key) ∧
        (p = M - mid ∨ key ≤ L.keys (mid + p)) ∧
        (∀ j, j < p →
          (splitLeafNode M L key rid newPid).newLeaf.keys j = L.keys (mid + j) ∧
          (splitLeafNode M L key rid newPid).newLeaf.rids j = L.rids (mid + j)) ∧
        (splitLeafNode M L key rid newPid).newLeaf.keys p = key ∧
        (splitLeafNode M L key rid newPid).newLeaf.rids p = rid ∧
        (∀ j, p < j → j ≤ M - mid →
          (splitLeafNode M L key rid newPid).newLeaf.keys j = L.keys (mid + j - 1) ∧
          (splitLeafNode M L key rid newPid).newLeaf.rids j = L.rids (mid + j - 1)) ∧
        (∀ j, M - mid < j → (splitLeafNode M L key rid newPid).newLeaf.keys j = -1))) := by
  subst hmid
  rw [splitLeafNode_cases]
  obtain ⟨hd1k, hd1r, hd1s, hn1k, hn1r, hn1s⟩ :=
    leafMoveLoop_eq ((M+1)/2) (M - (M+1)/2) ((M+1)/2) L defaultLeaf le_rfl
  set d1 := (leafMoveLoop ((M+1)/2) (M - (M+1)/2) ((M+1)/2) L defaultLeaf).1 with hd1
  set n1 := (leafMoveLoop ((M+1)/2) (M - (M+1)/2) ((M+1)/2) L defaultLeaf).2 with hn1
  have hmidM : (M+1)/2 < M := by omega
  have hn1k0 : n1.keys 0 = L.keys ((M+1)/2) := by
    rw [hn1k 0, if_pos (by omega)]
    norm_num
  have hd1dense : ∀ j, j < (M+1)/2 → d1.keys j ≠ -1 := by
    intro j hj
    rw [hd1k j, if_neg (by omega)]
    exact hfull j (by omega)
  have hd1sent : ∀ i, (M+1)/2 ≤ i → i < M → d1.keys i = -1 := by
    intro i h1 h2
    rw [hd1k i, if_pos (by omega)]
  have hn1dense : ∀ j, j < M - (M+1)/2 → n1.keys j ≠ -1 := by
    intro j hj
    rw [hn1k j, if_pos (by omega)]
    exact hfull ((M+1)/2 + j) (by omega)
  have hn1sent : ∀ i, M - (M+1)/2 ≤ i → i < M → n1.keys i = -1 := by
    intro i h1 _
    rw [hn1k i, if_neg (by omega)]
    rfl
  split_ifs with hbr
  · -- the incoming key goes into the original (left) half
    rw [hn1k0] at hbr
    have hPex : ∃ n, n = (M+1)/2 ∨ key ≤ L.keys n := ⟨(M+1)/2, Or.inl rfl⟩
    have hPspec := Nat.find_spec hPex
    have hple : Nat.find hPex ≤ (M+1)/2 := Nat.find_le (Or.inl rfl)
    have hbelowL : ∀ i, i < Nat.find hPex → L.keys i < key := by
      intro i hi
      have hm := Nat.find_min hPex hi
      push_neg at hm
      exact hm.2
    have hbelowd : ∀ i, i < Nat.find hPex → d1.keys i < key := by
      intro i hi
      rw [hd1k i, if_neg (by omega)]
      exact hbelowL i hi
    have hstopd : d1.keys (Nat.find hPex) = -1 ∨ key ≤ d1.keys (Nat.find hPex) := by
      by_cases hpm : Nat.find hPex = (M+1)/2
      · exact Or.inl (hd1sent _ (by omega) (by omega))
      · rcases hPspec with h | h
        · exact absurd h hpm
        · refine Or.inr ?_
          rw [hd1k _, if_neg (by omega)]
          exact h
    obtain ⟨hres, hk, hr⟩ := insertKeyInLeafNode_eq M d1 key rid ((M+1)/2)
      (Nat.find hPex) hmidM hd1dense hd1sent hple hbelowd hstopd
    rw [hres]
    simp only [Option.getD_some]
    refine ⟨hd1s, trivial, trivial, ?_, fun hc => absurd hbr (not_lt.mpr hc)⟩
    intro _
    refine ⟨?_, ?_, Nat.find hPex, hple, hbelowL, hPspec, ?_, ?_, ?_, ?_, ?_⟩
    · intro j hj
      constructor
      · rw [hn1k j, if_pos (by omega)]
      · rw [hn1r j, if_pos (by omega)]
    · intro j hj
      rw [hn1k j, if_neg (by omega)]
      rfl
    · intro j hj
      constructor
      · rw [hk j, if_pos hj, hd1k j, if_neg (by omega)]
      · rw [hr j, if_pos hj, hd1r j]
    · rw [hk _, if_neg (by omega), if_pos rfl]
    · rw [hr _, if_neg (by omega), if_pos rfl]
    · intro j hj1 hj2
      constructor
      · rw [hk j, if_neg (by omega), if_neg (by omega), if_pos hj2,
           hd1k (j-1), if_neg (by omega)]
      · rw [hr j, if_neg (by omega), if_neg (by omega), if_pos hj2, hd1r (j-1)]
    · intro j hj1 hj2
      rw [hk j, if_neg (by omega), if_neg (by omega), if_neg (by omega),
         hd1k j, if_pos (by omega)]
  · -- the incoming key goes into the new (right) half
    rw [hn1k0] at hbr
    have hble : L.keys ((M+1)/2) ≤ key := not_lt.mp hbr
    have hQex : ∃ n, n = M - (M+1)/2 ∨
        (n < M - (M+1)/2 ∧ key ≤ L.keys ((M+1)/2 + n)) := ⟨M - (M+1)/2, Or.inl rfl⟩
    have hQspec := Nat.find_spec hQex
    have hqle : Nat.find hQex ≤ M - (M+1)/2 := Nat.find_le (Or.inl rfl)
    have hbelowL : ∀ i, i < Nat.find hQex → L.keys ((M+1)/2 + i) < key := by
      intro i hi
      have hm := Nat.find_min hQex hi
      push_neg at hm
      exact hm.2 (by omega)
    have hbelown : ∀ i, i < Nat.find hQex → n1.keys i < key := by
      intro i hi
      rw [hn1k i, if_pos (by omega)]
      exact hbelowL i hi
    have hstopn : n1.keys (Nat.find hQex) = -1 ∨ key ≤ n1.keys (Nat.find hQex) := by
      rcases hQspec with h | h
      · refine Or.inl ?_
        rw [h]
        exact hn1sent _ le_rfl (by omega)
      · refine Or.inr ?_
        rw [hn1k _, if_pos (by omega)]
        exact h.2
    obtain ⟨hres, hk, hr⟩ := insertKeyInLeafNode_eq M n1 key rid (M - (M+1)/2)
      (Nat.find hQex) (by omega) hn1dense hn1sent hqle hbelown hstopn
    rw [hres]
    simp only [Option.getD_some]
    have hQalt : Nat.find hQex = M - (M+1)/2 ∨ key ≤ L.keys ((M+1)/2 + Nat.find hQex) := by
      rcases hQspec with h | h
      · exact Or.inl h
      · exact Or.inr h.2
    refine ⟨hd1s, trivial, trivial, fun hc => absurd hc (not_lt.mpr hble), ?_⟩
    intro _
    refine ⟨?_, ?_, Nat.find hQex, hqle, hbelowL, hQalt, ?_, ?_, ?_, ?_, ?_⟩
    · intro j hj
      constructor
      · rw [hd1k j, if_neg (by omega)]
      · rw [hd1r j]
    · intro j hj1 hj2
      rw [hd1k j, if_pos (by omega)]
    · intro j hj
      constructor
      · rw [hk j, if_pos hj, hn1k j, if_pos (by omega)]
      · rw [hr j, if_pos hj, hn1r j, if_pos (by omega)]
    · rw [hk _, if_neg (by omega), if_pos rfl]
    · rw [hr _, if_neg (by omega), if_pos rfl]
    · intro j hj1 hj2
      constructor
      · rw [hk j, if_neg (by omega), if_neg (by omega), if_pos hj2,
           hn1k (j-1), if_pos (by omega)]
        congr 1
        omega
      · rw [hr j, if_neg (by omega), if_neg (by omega), if_pos hj2,
           hn1r (j-1), if_pos (by omega)]
        congr 1
        omega
    · intro j hj
      rw [hk j, if_neg (by omega), if_neg (by omega), if_neg (by omega),
         hn1k j, if_neg (by omega)]
      rfl

/-- Witness for C4: splitting the full leaf with keys (1, 3, 5, 7) on the
incoming pair (4, (77,7)) with new page 12. -/
theorem c4_splitLeafNode_witness :
    ((2:Nat) ≤ 4 ∧ (2:Nat) = (4+1)/2 ∧ (∀ i, i < 4 → wFullLeaf.keys i ≠ -1)) ∧
    ((splitLeafNode 4 wFullLeaf 4 ⟨77, 7⟩ 12).newLeaf.rightSibPageNo =
        wFullLeaf.rightSibPageNo ∧
     (splitLeafNode 4 wFullLeaf 4 ⟨77, 7⟩ 12).orig.rightSibPageNo = 12 ∧
     (splitLeafNode 4 wFullLeaf 4 ⟨77, 7⟩ 12).promoted =
       (splitLeafNode 4 wFullLeaf 4 ⟨77, 7⟩ 12).newLeaf.keys 0 ∧
     ((4:Int) < wFullLeaf.keys 2 →
       (∀ j, j < 4 - 2 →
         (splitLeafNode 4 wFullLeaf 4 ⟨77, 7⟩ 12).newLeaf.keys j = wFullLeaf.keys (2 + j) ∧
         (splitLeafNode 4 wFullLeaf 4 ⟨77, 7⟩ 12).newLeaf.rids j = wFullLeaf.rids (2 + j)) ∧
       (∀ j, 4 - 2 ≤ j → (splitLeafNode 4 wFullLeaf 4 ⟨77, 7⟩ 12).newLeaf.keys j = -1) ∧
       (∃ p, p ≤ 2 ∧ (∀ i, i < p → wFullLeaf.keys i < 4) ∧
         (p = 2 ∨ (4:Int) ≤ wFullLeaf.keys p) ∧
         (∀ j, j < p →
           (splitLeafNode 4 wFullLeaf 4 ⟨77, 7⟩ 12).orig.keys j = wFullLeaf.keys j ∧
           (splitLeafNode 4 wFullLeaf 4 ⟨77, 7⟩ 12).orig.rids j = wFullLeaf.rids j) ∧
         (splitLeafNode 4 wFullLeaf 4 ⟨77, 7⟩ 12).orig.keys p = 4 ∧
         (splitLeafNode 4 wFullLeaf 4 ⟨77, 7⟩ 12).orig.rids p = ⟨77, 7⟩ ∧
         (∀ j, p < j → j ≤ 2 →
           (splitLeafNode 4 wFullLeaf 4 ⟨77, 7⟩ 12).orig.keys j = wFullLeaf.keys (j-1) ∧
           (splitLeafNode 4 wFullLeaf 4 ⟨77, 7⟩ 12).orig.rids j = wFullLeaf.rids (j-1)) ∧
         (∀ j, 2 < j → j < 4 →
           (splitLeafNode 4 wFullLeaf 4 ⟨77, 7⟩ 12).orig.keys j = -1))) ∧
     (wFullLeaf.keys 2 ≤ (4:Int) →
       (∀ j, j < 2 →
         (splitLeafNode 4 wFullLeaf 4 ⟨77, 7⟩ 12).orig.keys j = wFullLeaf.keys j ∧
         (splitLeafNode 4 wFullLeaf 4 ⟨77, 7⟩ 12).orig.rids j = wFullLeaf.rids j) ∧
       (∀ j, 2 ≤ j → j < 4 → (splitLeafNode 4 wFullLeaf 4 ⟨77, 7⟩ 12).orig.keys j = -1) ∧
       (∃ p, p ≤ 4 - 2 ∧ (∀ i, i < p → wFullLeaf.keys (2 + i) < 4) ∧
         (p = 4 - 2 ∨ (4:Int) ≤ wFullLeaf.keys (2 + p)) ∧
         (∀ j, j < p →
           (splitLeafNode 4 wFullLeaf 4 ⟨77, 7⟩ 12).newLeaf.keys j = wFullLeaf.keys (2 + j) ∧
           (splitLeafNode 4 wFullLeaf 4 ⟨77, 7⟩ 12).newLeaf.rids j = wFullLeaf.rids (2 + j)) ∧
         (splitLeafNode 4 wFullLeaf 4 ⟨77, 7⟩ 12).newLeaf.keys p = 4 ∧
         (splitLeafNode 4 wFullLeaf 4 ⟨77, 7⟩ 12).newLeaf.rids p = ⟨77, 7⟩ ∧
         (∀ j, p < j → j ≤ 4 - 2 →
           (splitLeafNode 4 wFullLeaf 4 ⟨77, 7⟩ 12).newLeaf.keys j =
             wFullLeaf.keys (2 + j - 1) ∧
           (splitLeafNode 4 wFullLeaf 4 ⟨77, 7⟩ 12).newLeaf.rids j =
             wFullLeaf.rids (2 + j - 1)) ∧
         (∀ j, 4 - 2 < j →
           (splitLeafNode 4 wFullLeaf 4 ⟨77, 7⟩ 12).newLeaf.keys j = -1)))) :=
  ⟨⟨by decide, by decide, by decide⟩,
   c4_splitLeafNode 4 2 wFullLeaf 4 ⟨77, 7⟩ 12 (by decide) (by decide) (by decide)⟩

theorem defaultLeaf_keys (j : Nat) : defaultLeaf.keys j = -1 := rfl

theorem firstSentinel_default (M : Nat) : firstSentinel defaultLeaf.keys M 0 = 0 := by
  cases M with
  | zero => rfl
  | succ m => simp [firstSentinel, defaultLeaf, aconst]

theorem defaultLeaf_wf (M : Nat) : leafWF M defaultLeaf := by
  refine ⟨?_, ?_, ?_⟩
  · intro i hi
    rw [firstSentinel_default] at hi
    omega
  · intro j hj
    rw [firstSentinel_default] at hj
    omega
  · intro i _ _
    rfl

theorem readLeaf_wf (M : Nat) (st : Store) (hwf : storeLeafWF M st) (p : Nat) :
    leafWF M (readLeaf st p) := by
  rcases hf : st.find? (fun e => e.1 == p) with _ | e
  · have : readLeaf st p = defaultLeaf := by
      show (match Option.map (fun e : Nat × PageNode => e.2)
          (st.find? (fun e => e.1 == p)) with
        | some (PageNode.lf n) => n
        | _ => defaultLeaf) = defaultLeaf
      rw [hf]
      rfl
    rw [this]
    exact defaultLeaf_wf M
  · have hmem : e ∈ st := List.mem_of_find?_eq_some hf
    have heq : e.1 = p := by
      have := List.find?_some hf
      simpa using this
    have := hwf e hmem
    rwa [heq] at this

theorem sib_ne_zero_mem (st : Store) (p : Nat)
    (h : (readLeaf st p).rightSibPageNo ≠ 0) :
    ∃ e ∈ st, e.1 = p := by
  rcases hf : st.find? (fun e => e.1 == p) with _ | e
  · exfalso
    apply h
    show (match Option.map (fun e : Nat × PageNode => e.2)
        (st.find? (fun e => e.1 == p)) with
      | some (PageNode.lf n) => n
      | _ => defaultLeaf).rightSibPageNo = 0
    rw [hf]
    rfl
  · have hmem : e ∈ st := List.mem_of_find?_eq_some hf
    have heq : e.1 = p := by
      have := List.find?_some hf
      simpa using this
    exact ⟨e, hmem, heq⟩

theorem firstSentinel_ne_zero (keys : Nat → Int) (M : Nat)
    (h : firstSentinel keys M 0 ≠ 0) : keys 0 ≠ -1 ∧ 0 < M := by
  cases M with
  | zero => exact absurd rfl h
  | succ m =>
      constructor
      · intro h0
        exact h (by simp [firstSentinel, h0])
      · omega

theorem real_lt_firstSentinel (M : Nat) (L : LeafNodeInt) (hwf : leafWF M L)
    (j : Nat) (hj : j < M) (hr : L.keys j ≠ -1) : j < firstSentinel L.keys M 0 := by
  by_contra hle
  exact hr (hwf.2.2 j hj (by omega))

theorem scanLoop_ok_shape (M : Nat) : ∀ (fuel : Nat) (s : BTState) (rid : RecordId),
    s.nextEntry ≤ M →
    (scanNextLoop M fuel s).1 = .ok rid →
    (scanNextLoop M fuel s).2.store = s.store ∧
    (scanNextLoop M fuel s).2.lowOp = s.lowOp ∧
    (scanNextLoop M fuel s).2.highOp = s.highOp ∧
    (scanNextLoop M fuel s).2.lowValInt = s.lowValInt ∧
    (scanNextLoop M fuel s).2.highValInt = s.highValInt ∧
    (scanNextLoop M fuel s).2.scanExecuting = s.scanExecuting ∧
    1 ≤ (scanNextLoop M fuel s).2.nextEntry ∧
    (scanNextLoop M fuel s).2.nextEntry ≤ M ∧
    rid = (readLeaf s.store (scanNextLoop M fuel s).2.currentPageNum).rids
            ((scanNextLoop M fuel s).2.nextEntry - 1) ∧
    ¬((s.lowOp = .GT ∧
        (readLeaf s.store (scanNextLoop M fuel s).2.currentPageNum).keys
          ((scanNextLoop M fuel s).2.nextEntry - 1) ≤ s.lowValInt) ∨
      (s.lowOp = .GTE ∧
        (readLeaf s.store (scanNextLoop M fuel s).2.currentPageNum).keys
          ((scanNextLoop M fuel s).2.nextEntry - 1) < s.lowValInt)) ∧
    ¬((s.highOp = .LT ∧
        (readLeaf s.store (scanNextLoop M fuel s).2.currentPageNum).keys
          ((scanNextLoop M fuel s).2.nextEntry - 1) ≥ s.highValInt) ∨
      (s.highOp = .LTE ∧
        (readLeaf s.store (scanNextLoop M fuel s).2.currentPageNum).keys
          ((scanNextLoop M fuel s).2.nextEntry - 1) > s.highValInt))
  | 0, _, _, _, hok => Except.noConfusion hok
  | fuel+1, s, rid, hne, hok => by
      simp only [scanNextLoop] at hok ⊢
      split_ifs at hok ⊢ with h1 h2 h3 h4 <;>
        first
        | exact Except.noConfusion hok
        | exact scanLoop_ok_shape M fuel _ rid (Nat.zero_le M) hok
        | exact scanLoop_ok_shape M fuel _ rid (show s.nextEntry + 1 ≤ M by omega) hok
        | exact ⟨rfl, rfl, rfl, rfl, rfl, rfl, show 1 ≤ s.nextEntry + 1 by omega,
            show s.nextEntry + 1 ≤ M by omega, (Except.ok.inj hok).symm, h3, h4⟩

theorem scanLoop_deadend (M : Nat) : ∀ (fuel : Nat) (s : BTState) (rid : RecordId),
    (s.lowOp = .GT ∨ s.lowOp = .GTE) →
    0 ≤ s.lowValInt →
    s.nextEntry ≤ M →
    (∀ j, j < M → (readLeaf s.store s.currentPageNum).keys j = -1) →
    (readLeaf s.store s.currentPageNum).rightSibPageNo = 0 →
    (scanNextLoop M fuel s).1 ≠ .ok rid
  | 0, _, _, _, _, _, _, _ => fun hok => Except.noConfusion hok
  | fuel+1, s, rid, hops, hlow, hne, hempty, hsib => by
      intro hok
      simp only [scanNextLoop] at hok
      split_ifs at hok with h1 h2 h3
      · exact scanLoop_deadend M fuel { s with nextEntry := s.nextEntry + 1 } rid hops hlow
          (show s.nextEntry + 1 ≤ M by omega) hempty hsib hok
      · have hkey := hempty s.nextEntry (by omega)
        rcases hops with hgt | hgte
        · exact h2 (Or.inl ⟨hgt, by rw [hkey]; omega⟩)
        · exact h2 (Or.inr ⟨hgte, by rw [hkey]; omega⟩)

theorem scanLoop_lb (M : Nat) (B : Int) : ∀ (fuel : Nat) (s : BTState) (rid : RecordId),
    (s.lowOp = .GT ∨ s.lowOp = .GTE) →
    0 ≤ s.lowValInt →
    s.nextEntry ≤ M →
    storeLeafWF M s.store →
    chainOrdered M s.store →
    chainMidOk M s.store →
    (∀ j, s.nextEntry ≤ j → j < M →
      (readLeaf s.store s.currentPageNum).keys j ≠ -1 →
      B ≤ (readLeaf s.store s.currentPageNum).keys j) →
    (∃ j, j < M ∧ (readLeaf s.store s.currentPageNum).keys j ≠ -1 ∧
      B ≤ (readLeaf s.store s.currentPageNum).keys j) →
    (scanNextLoop M fuel s).1 = .ok rid →
    B ≤ (readLeaf s.store (scanNextLoop M fuel s).2.currentPageNum).keys
          ((scanNextLoop M fuel s).2.nextEntry - 1)
  | 0, _, _, _, _, _, _, _, _, _, _, hok => absurd hok (fun h => Except.noConfusion h)
  | fuel+1, s, rid, hops, hlow, hne, hwf, hco, hmid, hsuffix, hwit, hok => by
      simp only [scanNextLoop] at hok ⊢
      split_ifs at hok ⊢ with h1 h2 h3 h4
      · -- move to the right sibling
        obtain ⟨e, he, hep⟩ := sib_ne_zero_mem s.store s.currentPageNum h2
        have hcoe := hco e he
        rw [hep] at hcoe
        have hmide := hmid e he
        rw [hep] at hmide
        obtain ⟨jw, hjwM, hjwr, hjwB⟩ := hwit
        have hsfx2 : ∀ j, j < M →
            (readLeaf s.store
              (readLeaf s.store s.currentPageNum).rightSibPageNo).keys j ≠ -1 →
            B ≤ (readLeaf s.store
              (readLeaf s.store s.currentPageNum).rightSibPageNo).keys j := by
          intro j hj hr
          exact hjwB.trans (hcoe h2 jw hjwM j hj hjwr hr)
        by_cases hfs : firstSentinel (readLeaf s.store
            (readLeaf s.store s.currentPageNum).rightSibPageNo).keys M 0 = 0
        · exfalso
          have hsib0 : (readLeaf s.store
              (readLeaf s.store s.currentPageNum).rightSibPageNo).rightSibPageNo = 0 := by
            rcases hmide h2 with hne0 | h0
            · exact absurd hfs hne0
            · exact h0
          have hqwf := readLeaf_wf M s.store hwf
            (readLeaf s.store s.currentPageNum).rightSibPageNo
          have hqempty : ∀ j, j < M →
              (readLeaf s.store
                (readLeaf s.store s.currentPageNum).rightSibPageNo).keys j = -1 := by
            intro j hj
            exact hqwf.2.2 j hj (by omega)
          exact scanLoop_deadend M fuel
            { unpin s s.currentPageNum false with
                nextEntry := 0,
                currentPageNum := (readLeaf s.store s.currentPageNum).rightSibPageNo }
            rid hops hlow (Nat.zero_le M) hqempty hsib0 hok
        · have hq0 := firstSentinel_ne_zero _ M hfs
          exact scanLoop_lb M B fuel
            { unpin s s.currentPageNum false with
                nextEntry := 0,
                currentPageNum := (readLeaf s.store s.currentPageNum).rightSibPageNo }
            rid hops hlow (Nat.zero_le M) hwf hco hmid
            (fun j _ hj hr => hsfx2 j hj hr)
            ⟨0, hq0.2, hq0.1, hsfx2 0 hq0.2 hq0.1⟩ hok
      · -- skip an entry below the lower bound
        exact scanLoop_lb M B fuel { s with nextEntry := s.nextEntry + 1 } rid hops hlow
          (show s.nextEntry + 1 ≤ M by omega) hwf hco hmid
          (fun j hj1 hj2 hr => hsuffix j
            (by have hj1a : s.nextEntry + 1 ≤ j := hj1; omega) hj2 hr) hwit hok
      · -- emit the current entry
        have hneM : s.nextEntry < M := by omega
        have hreal : (readLeaf s.store s.currentPageNum).keys s.nextEntry ≠ -1 := by
          rcases hops with hgt | hgte
          · have : ¬((readLeaf s.store s.currentPageNum).keys s.nextEntry ≤ s.lowValInt) :=
              fun hc => h3 (Or.inl ⟨hgt, hc⟩)
            omega
          · have : ¬((readLeaf s.store s.currentPageNum).keys s.nextEntry < s.lowValInt) :=
              fun hc => h3 (Or.inr ⟨hgte, hc⟩)
            omega
        exact hsuffix s.nextEntry le_rfl hneM hreal

/-- Claim C5: every record id emitted by a successful `scanNext` carries a
key satisfying both recorded bounds under half-open semantics (`GT` strict,
`GTE` inclusive, `LT` strict, `LTE` inclusive — equal keys excluded by
`GT`/`LT`, included by `GTE`/`LTE`), and, over a store of well-formed leaves
(dense sorted non-negative prefixes) whose sibling chains are ordered with
no empty mid-chain leaf, with a non-negative recorded lower bound, two
successive successful `scanNext` calls emit keys in non-decreasing order. -/
theorem c5_scanNext_bounds_order (M fuel : Nat) (s : BTState) (rid : RecordId)
    (hops : (s.lowOp = .GT ∨ s.lowOp = .GTE) ∧ (s.highOp = .LT ∨ s.highOp = .LTE))
    (hne : s.nextEntry ≤ M)
    (hok : (scanNext M fuel s).1 = .ok rid) :
    (satLow s.lowOp s.lowValInt (emittedKey (scanNext M fuel s).2) ∧
     satHigh s.highOp s.highValInt (emittedKey (scanNext M fuel s).2) ∧
     rid = (readLeaf s.store (scanNext M fuel s).2.currentPageNum).rids
             ((scanNext M fuel s).2.nextEntry - 1)) ∧
    (∀ fuel2 rid2,
      storeLeafWF M s.store → chainOrdered M s.store → chainMidOk M s.store →
      0 ≤ s.lowValInt →
      (scanNext M fuel2 (scanNext M fuel s).2).1 = .ok rid2 →
      emittedKey (scanNext M fuel s).2 ≤
        emittedKey (scanNext M fuel2 (scanNext M fuel s).2).2) := by
  by_cases hsc : s.scanExecuting = false
  · exfalso
    unfold scanNext at hok
    rw [if_pos hsc] at hok
    exact Except.noConfusion hok
  have hsrun : scanNext M fuel s = scanNextLoop M fuel s := by
    unfold scanNext
    rw [if_neg hsc]
  rw [hsrun] at hok ⊢
  obtain ⟨hst, hlo, hho, hlv, hhv, hse, hne1, hneM, hridEq, hnskip, hnhigh⟩ :=
    scanLoop_ok_shape M fuel s rid hne hok
  have hkey1 : emittedKey (scanNextLoop M fuel s).2 =
      (readLeaf s.store (scanNextLoop M fuel s).2.currentPageNum).keys
        ((scanNextLoop M fuel s).2.nextEntry - 1) := by
    unfold emittedKey
    rw [hst]
  have hsatLow : satLow s.lowOp s.lowValInt (emittedKey (scanNextLoop M fuel s).2) := by
    rw [hkey1]
    rcases hops.1 with hgt | hgte
    · have hnle : ¬((readLeaf s.store (scanNextLoop M fuel s).2.currentPageNum).keys
          ((scanNextLoop M fuel s).2.nextEntry - 1) ≤ s.lowValInt) :=
        fun hc => hnskip (Or.inl ⟨hgt, hc⟩)
      rw [hgt]
      exact not_le.mp hnle
    · have hnlt : ¬((readLeaf s.store (scanNextLoop M fuel s).2.currentPageNum).keys
          ((scanNextLoop M fuel s).2.nextEntry - 1) < s.lowValInt) :=
        fun hc => hnskip (Or.inr ⟨hgte, hc⟩)
      rw [hgte]
      exact not_lt.mp hnlt
  have hsatHigh : satHigh s.highOp s.highValInt (emittedKey (scanNextLoop M fuel s).2) := by
    rw [hkey1]
    rcases hops.2 with hlt | hlte
    · have h1 : ¬((readLeaf s.store (scanNextLoop M fuel s).2.currentPageNum).keys
          ((scanNextLoop M fuel s).2.nextEntry - 1) ≥ s.highValInt) :=
        fun hc => hnhigh (Or.inl ⟨hlt, hc⟩)
      rw [hlt]
      exact not_le.mp h1
    · have h1 : ¬((readLeaf s.store (scanNextLoop M fuel s).2.currentPageNum).keys
          ((scanNextLoop M fuel s).2.nextEntry - 1) > s.highValInt) :=
        fun hc => hnhigh (Or.inr ⟨hlte, hc⟩)
      rw [hlte]
      exact not_lt.mp h1
  refine ⟨⟨hsatLow, hsatHigh, hridEq⟩, ?_⟩
  intro fuel2 rid2 hwf hco hmid hlow hok2
  have hsc2 : ¬((scanNextLoop M fuel s).2.scanExecuting = false) := by
    rw [hse]
    exact hsc
  have hsrun2 : scanNext M fuel2 (scanNextLoop M fuel s).2 =
      scanNextLoop M fuel2 (scanNextLoop M fuel s).2 := by
    unfold scanNext
    rw [if_neg hsc2]
  rw [hsrun2] at hok2 ⊢
  -- abbreviations for the state after the first emission
  have hwf1 : storeLeafWF M (scanNextLoop M fuel s).2.store := by rw [hst]; exact hwf
  have hco1 : chainOrdered M (scanNextLoop M fuel s).2.store := by rw [hst]; exact hco
  have hmid1 : chainMidOk M (scanNextLoop M fuel s).2.store := by rw [hst]; exact hmid
  have hiM : (scanNextLoop M fuel s).2.nextEntry - 1 < M := by omega
  have hk1nn : 0 ≤ emittedKey (scanNextLoop M fuel s).2 := by
    rcases hops.1 with hgt | hgte
    · have := hsatLow
      rw [hgt] at this
      exact le_of_lt (lt_of_le_of_lt hlow this)
    · have := hsatLow
      rw [hgte] at this
      exact le_trans hlow this
  have hk1real : (readLeaf (scanNextLoop M fuel s).2.store
      (scanNextLoop M fuel s).2.currentPageNum).keys
      ((scanNextLoop M fuel s).2.nextEntry - 1) ≠ -1 := by
    have : (readLeaf (scanNextLoop M fuel s).2.store
        (scanNextLoop M fuel s).2.currentPageNum).keys
        ((scanNextLoop M fuel s).2.nextEntry - 1) =
        emittedKey (scanNextLoop M fuel s).2 := rfl
    rw [this]
    omega
  have hlwf := readLeaf_wf M (scanNextLoop M fuel s).2.store hwf1
    (scanNextLoop M fuel s).2.currentPageNum
  have hifs : (scanNextLoop M fuel s).2.nextEntry - 1 <
      firstSentinel (readLeaf (scanNextLoop M fuel s).2.store
        (scanNextLoop M fuel s).2.currentPageNum).keys M 0 :=
    real_lt_firstSentinel M _ hlwf _ hiM hk1real
  have hlb := scanLoop_lb M (emittedKey (scanNextLoop M fuel s).2) fuel2
    (scanNextLoop M fuel s).2 rid2
    (by rw [hlo]; exact hops.1)
    (by rw [hlv]; exact hlow)
    hneM hwf1 hco1 hmid1
    (by
      intro j hj1 hj2 hr
      have hjfs := real_lt_firstSentinel M _ hlwf j hj2 hr
      have hsorted := hlwf.2.1 j hjfs ((scanNextLoop M fuel s).2.nextEntry - 1) (by omega)
      exact le_of_eq_of_le rfl hsorted)
    ⟨(scanNextLoop M fuel s).2.nextEntry - 1, hiM, hk1real, le_of_eq rfl⟩
    hok2
  have hst2 := (scanLoop_ok_shape M fuel2 (scanNextLoop M fuel s).2 rid2 hneM hok2).1
  unfold emittedKey
  rw [hst2]
  exact hlb

/-- Witness for C5: a scan `[GTE 1, LTE 10]` positioned at slot 0 of leaf 7
(keys 1, 2, chained to leaf 8 with keys 3, 4) emits rid (1,1), whose key
satisfies both bounds, and any following successful `scanNext` emits a key
at least as large. -/
theorem c5_scanNext_bounds_order_witness :
    (((wScanState.lowOp = .GT ∨ wScanState.lowOp = .GTE) ∧
      (wScanState.highOp = .LT ∨ wScanState.highOp = .LTE)) ∧
     wScanState.nextEntry ≤ 4 ∧
     (scanNext 4 20 wScanState).1 = .ok ⟨1, 1⟩) ∧
    ((satLow wScanState.lowOp wScanState.lowValInt
        (emittedKey (scanNext 4 20 wScanState).2) ∧
      satHigh wScanState.highOp wScanState.highValInt
        (emittedKey (scanNext 4 20 wScanState).2) ∧
      (⟨1, 1⟩ : RecordId) =
        (readLeaf wScanState.store (scanNext 4 20 wScanState).2.currentPageNum).rids
          ((scanNext 4 20 wScanState).2.nextEntry - 1)) ∧
     (∀ fuel2 rid2,
       storeLeafWF 4 wScanState.store → chainOrdered 4 wScanState.store →
       chainMidOk 4 wScanState.store → 0 ≤ wScanState.lowValInt →
       (scanNext 4 fuel2 (scanNext 4 20 wScanState).2).1 = .ok rid2 →
       emittedKey (scanNext 4 20 wScanState).2 ≤
         emittedKey (scanNext 4 fuel2 (scanNext 4 20 wScanState).2).2)) :=
  ⟨⟨⟨Or.inr rfl, Or.inr rfl⟩, by decide, by decide⟩,
   c5_scanNext_bounds_order 4 20 wScanState ⟨1, 1⟩ ⟨Or.inr rfl, Or.inr rfl⟩
     (by decide) (by decide)⟩

end BTreeSim
